/-
Verification of the audio-transcript reconciliation and speaker-attribution
pipeline of `src/controllers/diagnosisController.ts` (and its revision in
`src/unnamed/part_005`).

Shallow embedding conventions:
* JS strings are lists of code units (`List Nat`); all texts handled by the
  pipeline are ASCII, so `toLowerCase`/`toUpperCase` are modelled by the
  ASCII case maps and the `\s` class by the ASCII whitespace characters.
* JS numbers carried by segments are exact: millisecond offsets are `Int`,
  confidences and derived ratios are unnormalized fractions `QQ` (an
  `Int` numerator and positive `Int` denominator); all arithmetic the code
  performs on them is exact, so fractions model it faithfully.  Division by
  zero yields the conventional `⟨0, 1⟩` (the JS code never compares the
  resulting NaN in a way that matters to the theorems below).
* `Math.round x = ⌊x + 1/2⌋` for the non-negative operands the code uses.
* Segment records carry every field any revision of the code attaches
  (provenance flags included); the JS spread `{...seg, f := v}` is the
  structure update `{ seg with f := v }`.  The source field `end` is named
  `stop` here (`end` is a Lean keyword).
* The human-readable `reason` strings of the voice-pattern analyzer and the
  interpolated response `message` strings are not modelled (no theorem
  below is about them); `error` strings of failure responses are modelled.
-/
import Mathlib

set_option maxRecDepth 10000

/-- JS string as a list of code units (all relevant data is ASCII). -/
abbrev JStr := List Nat

/-- Code units of a Lean string literal. -/
def str (s : String) : JStr := s.toList.map Char.toNat

/-- Exact JS number: an unnormalized fraction (denominator kept positive
by construction). -/
structure QQ where
  num : Int
  den : Int
deriving DecidableEq

def qAdd (a b : QQ) : QQ := ⟨a.num * b.den + b.num * a.den, a.den * b.den⟩

def qSub (a b : QQ) : QQ := ⟨a.num * b.den - b.num * a.den, a.den * b.den⟩

def qMul (a b : QQ) : QQ := ⟨a.num * b.num, a.den * b.den⟩

def qDiv (a b : QQ) : QQ :=
  if a.den * b.num = 0 then ⟨0, 1⟩
  else if a.den * b.num < 0 then ⟨-(a.num * b.den), -(a.den * b.num)⟩
  else ⟨a.num * b.den, a.den * b.num⟩

/-- Value order on fractions (valid for positive denominators). -/
def qLt (a b : QQ) : Prop := a.num * b.den < b.num * a.den

instance (a b : QQ) : Decidable (qLt a b) := by unfold qLt; exact inferInstance

/-- JS `Math.max` on two numbers. -/
def qMax (a b : QQ) : QQ := if qLt a b then b else a

/-- JS `Math.min` on two numbers. -/
def qMin (a b : QQ) : QQ := if qLt b a then b else a

/-- JS `Math.round` (round half up). -/
def qRound (q : QQ) : Int := Int.fdiv (2 * q.num + q.den) (2 * q.den)

def qSum (l : List QQ) : QQ := l.foldl qAdd ⟨0, 1⟩

/-- ASCII whitespace (JS `\s` restricted to the ASCII range). -/
def isWs (c : Nat) : Bool := c == 32 || c == 9 || c == 10 || c == 13

/-- The sentence delimiters of the regex `[.!?]+`. -/
def isSentMark (c : Nat) : Bool := c == 46 || c == 33 || c == 63

def jsCharLower (c : Nat) : Nat := if 65 ≤ c ∧ c ≤ 90 then c + 32 else c

def jsCharUpper (c : Nat) : Nat := if 97 ≤ c ∧ c ≤ 122 then c - 32 else c

/-- JS `toLowerCase` on ASCII data. -/
def jsToLower (s : JStr) : JStr := s.map jsCharLower

/-- JS `toUpperCase` on ASCII data. -/
def jsToUpper (s : JStr) : JStr := s.map jsCharUpper

/-- JS `trim` (ASCII whitespace). -/
def jsTrim (s : JStr) : JStr := ((s.dropWhile isWs).reverse.dropWhile isWs).reverse

/-- Bool test that `pre` is an initial run of `s`. -/
def hasPre (pre s : JStr) : Bool := s.take pre.length == pre

/-- JS `String.prototype.includes`. -/
def jsIncludes : JStr → JStr → Bool
  | [], sub => sub.isEmpty
  | c :: rest, sub => hasPre sub (c :: rest) || jsIncludes rest sub

def consHead (c : Nat) : List JStr → List JStr
  | [] => [[c]]
  | w :: ws => (c :: w) :: ws

/-- JS `split` on the regex `p+` for a character class `p`: chunks between
maximal runs of `p`-characters, with an empty chunk at an edge that starts
or ends with such a run, and `[""]` on the empty string. -/
def splitRuns (p : Nat → Bool) : JStr → List JStr
  | [] => [[]]
  | c :: rest =>
    if p c then
      match rest with
      | [] => [[], []]
      | c' :: _ => if p c' then splitRuns p rest else [] :: splitRuns p rest
    else consHead c (splitRuns p rest)

/-- JS `split` on a single literal character (no run collapsing). -/
def splitChar (d : Nat) : JStr → List JStr
  | [] => [[]]
  | c :: rest => if c == d then [] :: splitChar d rest else consHead c (splitChar d rest)

/-- The (maximal, nonempty) whitespace-free words occurring in a string. -/
def wordsIn (s : JStr) : List JStr := (splitRuns isWs s).filter (fun w => !w.isEmpty)

/-- The words of a string, edge whitespace ignored. -/
def jsWords (s : JStr) : List JStr := wordsIn (jsTrim s)

/-- JS `Array.prototype.join` with the given separator. -/
def joinSep (sep : JStr) : List JStr → JStr
  | [] => []
  | [w] => w
  | w :: ws => w ++ sep ++ joinSep sep ws

def joinSpace (ws : List JStr) : JStr := joinSep [32] ws

/-- JS `endsWith('.')`. -/
def jsEndsWithDot (s : JStr) : Bool := s.getLast? == some 46

/-- A diarization segment together with every provenance field any stage of
the pipeline attaches.  Source field `end` is called `stop`. -/
structure Seg where
  speaker : JStr := []
  text : JStr := []
  start : Int := 0
  stop : Int := 0
  confidence : QQ := ⟨0, 1⟩
  preservedUtterance : Bool := false
  singleSpeakerDetected : Bool := false
  fallback : Bool := false
  whisperBased : Bool := false
  assemblyAI : Bool := false
  mappingMethod : JStr := []
  method : JStr := []
deriving DecidableEq

def segDefault : Seg := {}

/-- Quality snapshot returned by `validateSpeakerQuality`. -/
structure Quality where
  averageConfidence : QQ
  hasHighConfidenceSegments : Bool
  speakerCount : Nat
  highConfidenceCount : Nat
  lowConfidenceCount : Nat
deriving DecidableEq

/-- First-occurrence deduplication: JS `[...new Set(xs)]` / `Object.keys`
of an insertion-ordered accumulation. -/
def firstDedupAux (seen : List JStr) : List JStr → List JStr
  | [] => []
  | x :: xs => if seen.contains x then firstDedupAux seen xs else x :: firstDedupAux (x :: seen) xs

def firstDedup (l : List JStr) : List JStr := firstDedupAux [] l

/-- `validateSpeakerQuality` (diagnosisController.ts lines 426-443). -/
def validateSpeakerQuality (segments : List Seg) : Quality :=
  if segments.isEmpty then ⟨⟨0, 1⟩, false, 0, 0, 0⟩
  else
    let confidences := segments.map (fun s => s.confidence)
    let averageConfidence := qDiv (qSum confidences) ⟨(segments.length : Int), 1⟩
    { averageConfidence := qDiv ⟨qRound (qMul averageConfidence ⟨100, 1⟩), 1⟩ ⟨100, 1⟩
      hasHighConfidenceSegments := segments.any (fun s => decide (qLt ⟨8, 10⟩ s.confidence))
      speakerCount := (firstDedup (segments.map (fun s => s.speaker))).length
      highConfidenceCount := (segments.filter (fun s => decide (qLt ⟨8, 10⟩ s.confidence))).length
      lowConfidenceCount := (segments.filter (fun s => decide (qLt s.confidence ⟨5, 10⟩))).length }

/-- `normalizeSpeakerLabel` as in diagnosisController.ts lines 615-620
(this revision has no rule producing `C`). -/
def normalizeSpeakerLabel (speaker : JStr) : JStr :=
  if jsIncludes (jsToLower speaker) (str "a") || speaker == str "0" then str "A"
  else if jsIncludes (jsToLower speaker) (str "b") || speaker == str "1" then str "B"
  else jsToUpper speaker

/-- `normalizeSpeakerLabel` as in the `part_005` revision (lines 755-761),
which adds the `c`/`"2" → C` rule. -/
def normalizeSpeakerLabelC (speaker : JStr) : JStr :=
  if jsIncludes (jsToLower speaker) (str "a") || speaker == str "0" then str "A"
  else if jsIncludes (jsToLower speaker) (str "b") || speaker == str "1" then str "B"
  else if jsIncludes (jsToLower speaker) (str "c") || speaker == str "2" then str "C"
  else jsToUpper speaker

/-- Canonicalization exactly as the spec (§4.6) words it: `a`/`"0"` → A,
`b`/`"1"` → B, `c`/`"2"` → C, otherwise uppercase.  Stated for comparison
with the two code revisions. -/
def specCanonicalizeLabel (speaker : JStr) : JStr :=
  if jsIncludes (jsToLower speaker) (str "a") || speaker == str "0" then str "A"
  else if jsIncludes (jsToLower speaker) (str "b") || speaker == str "1" then str "B"
  else if jsIncludes (jsToLower speaker) (str "c") || speaker == str "2" then str "C"
  else jsToUpper speaker

/-- `shouldMergeSegments` (lines 492-504). -/
def shouldMergeSegments (prev current : Seg) : Bool :=
  let timeDiff := current.start - prev.stop
  let sameSpeaker := prev.speaker == current.speaker
  let shortGap := decide (timeDiff < 2000)
  let reasonableConfidence := decide (qLt ⟨7, 10⟩ prev.confidence) && decide (qLt ⟨7, 10⟩ current.confidence)
  let veryShortGap := decide (timeDiff < 500)
  let differentSpeakers := prev.speaker != current.speaker
  let highConfidence := decide (qLt ⟨8, 10⟩ prev.confidence) && decide (qLt ⟨8, 10⟩ current.confidence)
  (sameSpeaker && shortGap && reasonableConfidence) || (differentSpeakers && veryShortGap && highConfidence)

/-- The merge loop of `optimizeSpeakerSegments` (lines 452-475): the
accumulator is kept reversed so the mutable `lastSegment` is its head. -/
def optLoop (v : Quality) : List Seg → List Seg → List Seg
  | accRev, [] => accRev.reverse
  | accRev, cur :: rest =>
    if (jsTrim cur.text).length < 5 then optLoop v accRev rest
    else if qLt cur.confidence ⟨5, 10⟩ ∧ v.hasHighConfidenceSegments = true then optLoop v accRev rest
    else
      match accRev with
      | last :: prevAcc =>
        if shouldMergeSegments last cur then
          optLoop v ({ last with
                       text := last.text ++ 32 :: cur.text
                       stop := cur.stop
                       confidence := qMax last.confidence cur.confidence } :: prevAcc) rest
        else optLoop v ({ cur with speaker := normalizeSpeakerLabel cur.speaker } :: accRev) rest
      | [] => optLoop v [{ cur with speaker := normalizeSpeakerLabel cur.speaker }] rest

/-- Stable insertion step for the JS `sort((a, b) => a.start - b.start)`. -/
def insertSorted (s : Seg) : List Seg → List Seg
  | [] => [s]
  | t :: ts => if t.start < s.start then t :: insertSorted s ts else s :: t :: ts

/-- Stable sort by `start`, the semantics of the JS comparator sort. -/
def sortByStart : List Seg → List Seg
  | [] => []
  | s :: rest => insertSorted s (sortByStart rest)

/-- Result of `analyzeVoicePatterns`; the human-readable `reason` string is
not modelled. -/
structure VoiceAnalysis where
  isSingleSpeaker : Bool
  primarySpeaker : JStr
deriving DecidableEq

def listMaxI : List Int → Int
  | [] => 0
  | x :: xs => xs.foldl max x

def listMinI : List Int → Int
  | [] => 0
  | x :: xs => xs.foldl min x

def listMaxQ : List QQ → QQ
  | [] => ⟨0, 1⟩
  | x :: xs => xs.foldl qMax x

def listMinQ : List QQ → QQ
  | [] => ⟨0, 1⟩
  | x :: xs => xs.foldl qMin x

/-- Mean confidence of one speaker's segments (lines 555-560). -/
def speakerAvg (segments : List Seg) (sp : JStr) : QQ :=
  let ss := segments.filter (fun s => s.speaker == sp)
  qDiv (qSum (ss.map (fun s => s.confidence))) ⟨(ss.length : Int), 1⟩

/-- `analyzeVoicePatterns` (lines 506-588): four ordered single-speaker
tests with first-match-wins semantics. -/
def analyzeVoicePatterns (segments : List Seg) : VoiceAnalysis :=
  if segments.length < 2 then ⟨false, str "A"⟩
  else
    let speakers := firstDedup (segments.map (fun s => s.speaker))
    let totalSegments := segments.length
    match speakers.find? (fun sp =>
        decide (qLt ⟨95, 100⟩ (qDiv ⟨((segments.filter (fun s => s.speaker == sp)).length : Int), 1⟩
          ⟨(totalSegments : Int), 1⟩))) with
    | some majorSpeaker => ⟨true, majorSpeaker⟩
    | none =>
      let pairs := segments.zip segments.tail
      let alts := pairs.filter (fun pr => pr.1.speaker != pr.2.speaker)
      let rapidAlternations := (alts.filter (fun pr => decide (pr.2.start - pr.1.stop < 1500))).length
      if 0 < alts.length ∧ qLt ⟨85, 100⟩ (qDiv ⟨(rapidAlternations : Int), 1⟩ ⟨(alts.length : Int), 1⟩) then
        ⟨true, speakers.headD []⟩
      else
        let confidenceValues := speakers.map (speakerAvg segments)
        let maxConfidence := listMaxQ confidenceValues
        let minConfidence := listMinQ confidenceValues
        if speakers.length = 2 ∧ qLt ⟨25, 100⟩ (qSub maxConfidence minConfidence) then
          ⟨true, (speakers.find? (fun sp => speakerAvg segments sp == maxConfidence)).getD []⟩
        else
          if qLt ⟨6, 10⟩ (qDiv ⟨((segments.filter (fun s => (jsTrim s.text).length < 10)).length : Int), 1⟩
              ⟨(totalSegments : Int), 1⟩) then
            ⟨true, speakers.headD []⟩
          else ⟨false, str "A"⟩

/-- `optimizeSpeakerSegments` (lines 445-490). -/
def optimizeSpeakerSegments (segments : List Seg) : List Seg :=
  if segments.isEmpty then []
  else
    let sortedSegments := sortByStart segments
    let speakerValidation := validateSpeakerQuality sortedSegments
    let optimizedSegments := optLoop speakerValidation [] sortedSegments
    if qLt ⟨6, 10⟩ speakerValidation.averageConfidence then
      let voiceAnalysis := analyzeVoicePatterns optimizedSegments
      if voiceAnalysis.isSingleSpeaker then
        optimizedSegments.map (fun s =>
          { s with speaker := voiceAnalysis.primarySpeaker, singleSpeakerDetected := true })
      else optimizedSegments
    else optimizedSegments

def patientIndicators : List JStr :=
  [str "doctor, i am having", str "hello doctor", str "i am having", str "i have been having",
   str "since the last night", str "i am feeling", str "my stomach", str "headache",
   str "i do not have taken", str "my medical history", str "seizures",
   str "bloating", str "weakness", str "pain", str "fever", str "stomach ache"]

def doctorIndicators : List JStr :=
  [str "can you", str "what are", str "how long", str "when did", str "let me",
   str "please tell me", str "describe", str "any other symptoms", str "examination"]

/-- `detectPatientMonologue` (lines 641-675). -/
def detectPatientMonologue (text : JStr) (segments : List Seg) : Bool :=
  let lowerText := jsToLower text
  let patientScore := (patientIndicators.filter (fun ind => jsIncludes lowerText ind)).length
  let doctorScore := (doctorIndicators.filter (fun ind => jsIncludes lowerText ind)).length
  let startsWithPatient := hasPre (str "doctor,") lowerText || hasPre (str "hello doctor") lowerText ||
    hasPre (str "i am having") lowerText || hasPre (str "i have been") lowerText
  decide (2 ≤ patientScore) && decide (doctorScore < patientScore) &&
    startsWithPatient && decide (3 < segments.length)

/-- The sentence list the aligner computes: split on `[.!?]+`, trim each
piece, keep the ones longer than 3 characters. -/
def sentencesOf (text : JStr) : List JStr :=
  ((splitRuns isSentMark text).map jsTrim).filter (fun s => decide (3 < s.length))

/-- The mapping loop of `contentBasedAlignment` (lines 742-764), with the
mutable `wordIndex` made an explicit argument. -/
def cbaGo (words : List JStr) (totalDuration : Int) : Nat → List Seg → List Seg
  | _, [] => []
  | wordIndex, seg :: rest =>
    let segmentProportion := qDiv ⟨seg.stop - seg.start, 1⟩ ⟨totalDuration, 1⟩
    let wordsForSegment := max 1 (qRound (qMul ⟨(words.length : Int), 1⟩ segmentProportion)).toNat
    let segmentWords := (words.drop wordIndex).take wordsForSegment
    let wordIndex' := wordIndex + segmentWords.length
    let finalWords :=
      if rest.isEmpty ∧ wordIndex' < words.length then segmentWords ++ words.drop wordIndex'
      else segmentWords
    { seg with
      text := joinSpace finalWords
      whisperBased := true
      assemblyAI := true
      mappingMethod := str "content-proportional" } :: cbaGo words totalDuration wordIndex' rest

/-- `contentBasedAlignment` (lines 738-765).  The `whisperSentences`
parameter is passed by the source but unused there too. -/
def contentBasedAlignment (fullWhisperText : JStr) (_whisperSentences : List JStr)
    (assemblySegments : List Seg) : List Seg :=
  let words := splitRuns isWs (jsTrim fullWhisperText)
  let totalDuration := listMaxI (assemblySegments.map (fun s => s.stop)) -
    listMinI (assemblySegments.map (fun s => s.start))
  cbaGo words totalDuration 0 assemblySegments

/-- `intelligentTextAlignment` (lines 677-736). -/
def intelligentTextAlignment (whisperText : JStr) (assemblySegments : List Seg) : List Seg :=
  let whisperSentences := sentencesOf whisperText
  if detectPatientMonologue whisperText assemblySegments then
    [{ assemblySegments.headD segDefault with
        speaker := str "B"
        text := jsTrim whisperText
        start := listMinI (assemblySegments.map (fun s => s.start))
        stop := listMaxI (assemblySegments.map (fun s => s.stop))
        confidence := qDiv (qSum (assemblySegments.map (fun s => s.confidence)))
          ⟨(assemblySegments.length : Int), 1⟩
        whisperBased := true
        assemblyAI := true
        mappingMethod := str "patient-monologue" }]
  else if whisperSentences.length = assemblySegments.length then
    (assemblySegments.zip whisperSentences).map (fun pr =>
      { pr.1 with
        text := pr.2
        whisperBased := true
        assemblyAI := true
        mappingMethod := str "one-to-one" })
  else if assemblySegments.length < whisperSentences.length then
    let sentencesPerUtterance :=
      (whisperSentences.length + assemblySegments.length - 1) / assemblySegments.length
    assemblySegments.enum.map (fun pr =>
      let startIdx := pr.1 * sentencesPerUtterance
      let endIdx := min (startIdx + sentencesPerUtterance) whisperSentences.length
      let combinedText := joinSep (str ". ") ((whisperSentences.drop startIdx).take (endIdx - startIdx))
      { pr.2 with
        text := combinedText ++ (if jsEndsWithDot combinedText then [] else [46])
        whisperBased := true
        assemblyAI := true
        mappingMethod := str "sentence-grouping" })
  else if whisperSentences.length < assemblySegments.length then
    contentBasedAlignment whisperText whisperSentences assemblySegments
  else
    assemblySegments.map (fun s =>
      { s with whisperBased := false, assemblyAI := true, mappingMethod := str "assembly-fallback" })

/-- `alignWhisperWithSpeakers` (lines 622-639). -/
def alignWhisperWithSpeakers (whisperText : JStr) (assemblySegments : List Seg) : List Seg :=
  if whisperText.isEmpty || assemblySegments.isEmpty then assemblySegments
  else
    match assemblySegments with
    | [s] => [{ s with text := jsTrim whisperText, whisperBased := true, assemblyAI := true }]
    | _ => intelligentTextAlignment whisperText assemblySegments

/-- The sentence-alternation loop of `createFallbackSpeakerDetection`
(lines 400-421): synthetic clock passed explicitly, sentences enumerated. -/
def fbGo : Int → List (Nat × JStr) → List Seg
  | _, [] => []
  | currentTime, (index, sentence) :: rest =>
    let cleanSentence := jsTrim sentence
    if cleanSentence.length < 3 then fbGo currentTime rest
    else
      let speaker := if index % 2 = 0 then str "A" else str "B"
      let duration : Int := max 2000 ((cleanSentence.length : Int) * 80)
      { segDefault with
        speaker := speaker
        text := cleanSentence
        start := currentTime
        stop := currentTime + duration
        confidence := ⟨4, 10⟩
        fallback := true
        method := str "sentence-alternation" } :: fbGo (currentTime + duration + 500) rest

/-- `createFallbackSpeakerDetection` (lines 381-424). -/
def createFallbackSpeakerDetection (text : JStr) : List Seg :=
  if (jsTrim text).length < 10 then []
  else
    let sentences := (splitRuns isSentMark text).filter (fun s => decide (5 < (jsTrim s).length))
    if sentences.length ≤ 1 then
      [{ segDefault with
          speaker := str "A"
          text := jsTrim text
          start := 0
          stop := max 5000 ((text.length : Int) * 100)
          confidence := ⟨3, 10⟩
          fallback := true
          method := str "single-sentence" }]
    else fbGo 0 sentences.enum

/-- The fields of a settled AssemblyAI transcript the pipeline reads. -/
structure AssemblyTranscript where
  status : JStr
  utterances : List Seg
  text : JStr
deriving DecidableEq

/-- Lines 261-298: turn the settled diarizer outcome into the
`speakerSegments` list (empty when unusable).  A rejected promise or an
uncompleted job contributes nothing; completed utterances either get
preserved verbatim (labels canonicalized, `preservedUtterance` flag) when
the quality gate passes, or go through the optimizer; a completed job with
no utterances but text falls back to one synthetic segment. -/
def computeSpeakerSegments (assemblyOutcome : Except JStr AssemblyTranscript) : List Seg :=
  match assemblyOutcome with
  | .error _ => []
  | .ok tr =>
    if tr.status = str "completed" then
      if !tr.utterances.isEmpty then
        let rawSegments := tr.utterances
        let utteranceQuality := validateSpeakerQuality rawSegments
        if qLt ⟨7, 10⟩ utteranceQuality.averageConfidence ∧ rawSegments.length ≤ 10 then
          rawSegments.map (fun s =>
            { s with speaker := normalizeSpeakerLabel s.speaker, preservedUtterance := true })
        else optimizeSpeakerSegments rawSegments
      else if !(jsTrim tr.text).isEmpty then
        [{ segDefault with
            speaker := str "A"
            text := jsTrim tr.text
            start := 0
            stop := 30000
            confidence := ⟨5, 10⟩
            fallback := true }]
      else []
    else []

/-- Response record of the transcription endpoint (the interpolated success
`message` strings are not modelled; `error` strings are). -/
structure Resp where
  success : Bool
  text : JStr := []
  speakers : List Seg := []
  message : JStr := []
  error : JStr := []
  status : Nat
deriving DecidableEq

/-- Lines 241-346: the response computed after both sources settled.  A
rejected Whisper promise (or an empty result) leaves `transcriptText`
empty; the branch order is hybrid, whisper-only, assembly-only, total
failure. -/
def finalResponse (whisperOutcome : Except JStr JStr)
    (assemblyOutcome : Except JStr AssemblyTranscript) : Resp :=
  let transcriptText := match whisperOutcome with
    | .ok v => jsTrim v
    | .error _ => []
  let speakerSegments := computeSpeakerSegments assemblyOutcome
  if !transcriptText.isEmpty && !speakerSegments.isEmpty then
    { success := true, text := transcriptText,
      speakers := alignWhisperWithSpeakers transcriptText speakerSegments, status := 200 }
  else if !transcriptText.isEmpty then
    { success := true, text := transcriptText,
      speakers := createFallbackSpeakerDetection transcriptText, status := 200 }
  else if !speakerSegments.isEmpty then
    { success := true, text := joinSpace (speakerSegments.map (fun s => s.text)),
      speakers := speakerSegments, status := 200 }
  else
    { success := false,
      error := str "Both Whisper transcription and Assembly AI speaker detection failed",
      status := 500 }

def supportedFormats : List JStr :=
  [str "flac", str "m4a", str "mp3", str "mp4", str "mpeg", str "mpga",
   str "oga", str "ogg", str "wav", str "webm"]

/-- `filePath.split('.').pop()?.toLowerCase()`. -/
def fileExtOf (p : JStr) : JStr := jsToLower ((splitChar 46 p).getLastD [])

/-- One invocation's environment: configuration, the uploaded file's state,
the settled outcome of each source, and whether a stage after the sources
settle throws (in the source everything after line 239 is pure, so this
models a hypothetical throw; the catch handler then finds the temp file
already gone). -/
structure TranscribeEnv where
  assemblyKeyPresent : Bool
  openaiKeyPresent : Bool
  filePath : Option JStr
  fileOnDisk : Bool
  fileSize : Nat
  whisperOutcome : Except JStr JStr
  assemblyOutcome : Except JStr AssemblyTranscript
  laterStageThrows : Bool

/-- `transcribeWithSpeakers` (lines 123-379) as a pure function of its
environment, returning how many times `fs.unlinkSync` deleted the temp
file together with the response.  The only deletion sites in the source are
line 239 (after both sources settle) and the catch handler (guarded by
`existsSync`); every validation early-return passes neither.  A missing
file makes `statSync` throw, and the catch handler then sees no file to
delete.  Error strings are modelled up to their constant prefix. -/
def transcribeWithSpeakersModel (env : TranscribeEnv) : Nat × Resp :=
  if !env.assemblyKeyPresent then
    (0, { success := false, error := str "Assembly AI API key not configured", status := 500 })
  else if !env.openaiKeyPresent then
    (0, { success := false, error := str "OpenAI API key not configured", status := 500 })
  else
    match env.filePath with
    | none => (0, { success := false, error := str "No audio file uploaded", status := 400 })
    | some p =>
      if !env.fileOnDisk then
        (0, { success := false, error := str "Audio file not found or corrupted during upload",
              status := 400 })
      else if env.fileSize = 0 then
        (0, { success := false, error := str "Uploaded file is empty", status := 400 })
      else if env.fileSize < 1000 then
        (0, { success := false,
              error := str "Audio file too small - may be corrupted or contain no audio data",
              status := 400 })
      else if (fileExtOf p).isEmpty || !supportedFormats.contains (fileExtOf p) then
        (0, { success := false, error := str "Unsupported file format", status := 400 })
      else if env.laterStageThrows then
        (1, { success := false, error := str "Transcription failed", status := 500 })
      else (1, finalResponse env.whisperOutcome env.assemblyOutcome)

/- ### Lemmas about the split functions -/

theorem consHead_ne_nil (c : Nat) (x : List JStr) : consHead c x ≠ [] := by
  cases x <;> simp [consHead]

theorem splitRuns_cons_neg (p : Nat → Bool) (c : Nat) (rest : JStr) (h : ¬p c = true) :
    splitRuns p (c :: rest) = consHead c (splitRuns p rest) := by
  cases rest <;> simp [splitRuns, h]

theorem splitRuns_pos_nil (p : Nat → Bool) (c : Nat) (h : p c = true) :
    splitRuns p [c] = [[], []] := by
  simp [splitRuns, h]

theorem splitRuns_pos_pos (p : Nat → Bool) (c c' : Nat) (r : JStr)
    (h : p c = true) (h' : p c' = true) :
    splitRuns p (c :: c' :: r) = splitRuns p (c' :: r) := by
  simp [splitRuns, h, h']

theorem splitRuns_pos_neg (p : Nat → Bool) (c c' : Nat) (r : JStr)
    (h : p c = true) (h' : ¬p c' = true) :
    splitRuns p (c :: c' :: r) = [] :: splitRuns p (c' :: r) := by
  conv_lhs => rw [splitRuns]
  simp [h, h']

theorem splitRuns_ne_nil (p : Nat → Bool) : ∀ (l : JStr), splitRuns p l ≠ [] := by
  intro l
  induction l with
  | nil => simp [splitRuns]
  | cons c rest ih =>
    by_cases h : p c = true
    · cases rest with
      | nil => simp [splitRuns_pos_nil p c h]
      | cons c' r' =>
        by_cases h' : p c' = true
        · rw [splitRuns_pos_pos p c c' r' h h']; exact ih
        · simp [splitRuns_pos_neg p c c' r' h h']
    · rw [splitRuns_cons_neg p c rest h]; exact consHead_ne_nil _ _

/-- Filtering out empty chunks, a leading separator character is invisible. -/
theorem splitRuns_sep_cons (p : Nat → Bool) (c : Nat) (l : JStr) (hc : p c = true) :
    (splitRuns p (c :: l)).filter (fun w => !w.isEmpty)
      = (splitRuns p l).filter (fun w => !w.isEmpty) := by
  cases l with
  | nil => rw [splitRuns_pos_nil p c hc]; simp [splitRuns]
  | cons c' r' =>
    by_cases h' : p c' = true
    · rw [splitRuns_pos_pos p c c' r' hc h']
    · rw [splitRuns_pos_neg p c c' r' hc h']
      simp

/-- A string starting with a separator splits with an empty first chunk. -/
theorem splitRuns_sep_head (p : Nat → Bool) :
    ∀ (l : JStr) (c : Nat), p c = true → ∃ T, splitRuns p (c :: l) = [] :: T := by
  intro l
  induction l with
  | nil => exact fun c hc => ⟨[[]], by rw [splitRuns_pos_nil p c hc]⟩
  | cons c' r' ih =>
    intro c hc
    by_cases h' : p c' = true
    · obtain ⟨T, hT⟩ := ih c' h'
      exact ⟨T, by rw [splitRuns_pos_pos p c c' r' hc h']; exact hT⟩
    · exact ⟨splitRuns p (c' :: r'), splitRuns_pos_neg p c c' r' hc h'⟩

/-- No chunk produced by `splitRuns` contains a separator character. -/
theorem splitRuns_free (p : Nat → Bool) :
    ∀ (l : JStr) (w : JStr), w ∈ splitRuns p l → ∀ c ∈ w, p c = false := by
  intro l
  induction l with
  | nil =>
    intro w hw c hc
    simp [splitRuns] at hw
    rw [hw] at hc
    simp at hc
  | cons a rest ih =>
    intro w hw c hc
    by_cases ha : p a = true
    · cases rest with
      | nil =>
        rw [splitRuns_pos_nil p a ha] at hw
        simp at hw
        rw [hw] at hc
        simp at hc
      | cons a' r' =>
        by_cases ha' : p a' = true
        · rw [splitRuns_pos_pos p a a' r' ha ha'] at hw
          exact ih w hw c hc
        · rw [splitRuns_pos_neg p a a' r' ha ha'] at hw
          rcases List.mem_cons.mp hw with h | h
          · rw [h] at hc; simp at hc
          · exact ih w h c hc
    · have hne := splitRuns_ne_nil p rest
      rcases hsr : splitRuns p rest with _ | ⟨w0, ws⟩
      · exact absurd hsr hne
      · rw [splitRuns_cons_neg p a rest ha, hsr] at hw
        simp only [consHead] at hw
        rcases List.mem_cons.mp hw with h | h
        · rw [h] at hc
          rcases List.mem_cons.mp hc with h1 | h1
          · rw [h1]; simpa using ha
          · exact ih w0 (by rw [hsr]; exact List.mem_cons_self w0 ws) c h1
        · exact ih w (by rw [hsr]; exact List.mem_cons_of_mem w0 h) c hc

/-- Splitting after prepending a separator-free run extends the first chunk. -/
theorem splitRuns_word (p : Nat → Bool) :
    ∀ (w l : JStr), (∀ c ∈ w, p c = false) →
      splitRuns p (w ++ l) = (w ++ (splitRuns p l).headD []) :: (splitRuns p l).tail := by
  intro w
  induction w with
  | nil =>
    intro l _
    rcases hsr : splitRuns p l with _ | ⟨w0, ws⟩
    · exact absurd hsr (splitRuns_ne_nil p l)
    · simp [hsr]
  | cons a w' ih =>
    intro l hfree
    have ha : p a = false := hfree a (List.mem_cons_self a w')
    have hfree' : ∀ c ∈ w', p c = false := fun c hc => hfree c (List.mem_cons_of_mem a hc)
    have hstep : splitRuns p ((a :: w') ++ l) = consHead a (splitRuns p (w' ++ l)) := by
      rw [List.cons_append, splitRuns_cons_neg p a (w' ++ l) (by simp [ha])]
    rw [hstep, ih l hfree']
    simp [consHead]

/-- A separator-free string is its own single chunk. -/
theorem splitRuns_free_word (p : Nat → Bool) (w : JStr) (h : ∀ c ∈ w, p c = false) :
    splitRuns p w = [w] := by
  have := splitRuns_word p w [] h
  simpa [splitRuns] using this

/-- Joining whitespace-free pieces with single spaces and re-splitting
recovers exactly the nonempty pieces. -/
theorem wordsIn_joinSpace :
    ∀ (ws : List JStr), (∀ w ∈ ws, ∀ c ∈ w, isWs c = false) →
      wordsIn (joinSpace ws) = ws.filter (fun w => !w.isEmpty) := by
  intro ws
  induction ws with
  | nil => intro _; simp [joinSpace, joinSep, wordsIn, splitRuns]
  | cons w rest ih =>
    intro hfree
    have hw : ∀ c ∈ w, isWs c = false := hfree w (List.mem_cons_self w rest)
    have hrest : ∀ u ∈ rest, ∀ c ∈ u, isWs c = false :=
      fun u hu => hfree u (List.mem_cons_of_mem w hu)
    cases rest with
    | nil =>
      show (splitRuns isWs (joinSpace [w])).filter _ = _
      rw [show joinSpace [w] = w from rfl, splitRuns_free_word isWs w hw]
    | cons w2 rest2 =>
      have hJ : joinSpace (w :: w2 :: rest2) = w ++ 32 :: joinSpace (w2 :: rest2) := by
        simp [joinSpace, joinSep]
      obtain ⟨T, hT⟩ := splitRuns_sep_head isWs (joinSpace (w2 :: rest2)) 32 (by decide)
      have hsplit := splitRuns_word isWs w (32 :: joinSpace (w2 :: rest2)) hw
      rw [hT] at hsplit
      have hfT : T.filter (fun u => !u.isEmpty) = wordsIn (joinSpace (w2 :: rest2)) := by
        have h1 := splitRuns_sep_cons isWs 32 (joinSpace (w2 :: rest2)) (by decide)
        rw [hT] at h1
        simpa [wordsIn] using h1
      have hmain : wordsIn (joinSpace (w :: w2 :: rest2))
          = (w :: T).filter (fun u => !u.isEmpty) := by
        rw [wordsIn, hJ, hsplit]
        simp
      rw [hmain, List.filter_cons, List.filter_cons, hfT, ih hrest]

/- ### Word-slice bookkeeping for the content-proportional aligner -/

theorem takeDropChain {α : Type} (l : List α) (k : Nat) :
    l.take k ++ l.drop (l.take k).length = l := by
  rcases le_or_lt k l.length with h | h
  · rw [List.length_take, min_eq_left h, List.take_append_drop]
  · rw [List.take_of_length_le (le_of_lt h), List.drop_length, List.append_nil]

theorem sliceChain {α : Type} (words : List α) (wi k : Nat) :
    (words.drop wi).take k ++ words.drop (wi + ((words.drop wi).take k).length)
      = words.drop wi := by
  have hdd : words.drop (wi + ((words.drop wi).take k).length)
      = (words.drop wi).drop ((words.drop wi).take k).length := by
    rw [List.drop_drop]
  rw [hdd, takeDropChain]

theorem sliceAll {α : Type} (words : List α) (wi k : Nat)
    (h : words.length ≤ wi + ((words.drop wi).take k).length) :
    (words.drop wi).take k = words.drop wi := by
  apply List.take_of_length_le
  have h1 : ((words.drop wi).take k).length ≤ k := by
    rw [List.length_take]; exact min_le_left _ _
  have h2 : (words.drop wi).length = words.length - wi := List.length_drop wi words
  omega

/-- Conservation of words through the mapping loop of
`contentBasedAlignment`: starting from word index `wi`, the words the loop
distributes over a nonempty segment list are exactly the remaining words,
in order. -/
theorem cbaGo_flatten (words : List JStr) (td : Int)
    (hfree : ∀ w ∈ words, ∀ c ∈ w, isWs c = false) :
    ∀ (segs : List Seg) (wi : Nat), segs ≠ [] →
      ((cbaGo words td wi segs).map (fun s => wordsIn s.text)).flatten
        = (words.drop wi).filter (fun w => !w.isEmpty) := by
  intro segs
  induction segs with
  | nil => intro wi h; exact absurd rfl h
  | cons seg rest ih =>
    intro wi _
    rw [cbaGo]
    generalize (max 1 (qRound (qMul ⟨(words.length : Int), 1⟩
      (qDiv ⟨seg.stop - seg.start, 1⟩ ⟨td, 1⟩))).toNat) = K
    have hsub : ∀ w ∈ (words.drop wi).take K, ∀ c ∈ w, isWs c = false :=
      fun w hw => hfree w (List.drop_subset wi words (List.take_subset _ _ hw))
    have hdropfree : ∀ w ∈ words.drop wi, ∀ c ∈ w, isWs c = false :=
      fun w hw => hfree w (List.drop_subset wi words hw)
    cases rest with
    | nil =>
      simp only [List.map_cons, List.map_nil, List.flatten_cons, List.flatten_nil,
        List.append_nil, List.isEmpty_nil, true_and]
      by_cases hlt : wi + ((words.drop wi).take K).length < words.length
      · rw [if_pos hlt, sliceChain words wi K, wordsIn_joinSpace _ hdropfree]
        simp [cbaGo]
      · rw [if_neg hlt, sliceAll words wi K (Nat.le_of_not_lt hlt),
          wordsIn_joinSpace _ hdropfree]
        simp [cbaGo]
    | cons r rs =>
      simp only [List.isEmpty_cons, Bool.false_eq_true, false_and, if_false,
        List.map_cons, List.flatten_cons]
      rw [wordsIn_joinSpace _ hsub,
        ih (wi + ((words.drop wi).take K).length) (List.cons_ne_nil r rs),
        ← List.filter_append, sliceChain words wi K]

/-- The content-proportional strategy redistributes exactly the words of
the full source text over a nonempty segment list. -/
theorem contentBased_flatten (t : JStr) (sents : List JStr) (segs : List Seg) (h : segs ≠ []) :
    ((contentBasedAlignment t sents segs).map (fun s => wordsIn s.text)).flatten = jsWords t := by
  unfold contentBasedAlignment
  have hmain := cbaGo_flatten (splitRuns isWs (jsTrim t))
    (listMaxI (segs.map (fun s => s.stop)) - listMinI (segs.map (fun s => s.start)))
    (splitRuns_free isWs (jsTrim t)) segs 0 h
  simpa [jsWords, wordsIn] using hmain

/-- When the monologue heuristic does not fire and there are fewer
sentences than segments, the aligner takes the content-proportional path
and conserves every word. -/
theorem intelligent_content_flatten (t : JStr) (segs : List Seg)
    (hmono : detectPatientMonologue t segs = false)
    (hlt : (sentencesOf t).length < segs.length) :
    ((intelligentTextAlignment t segs).map (fun s => wordsIn s.text)).flatten = jsWords t := by
  have hne : segs ≠ [] := by
    intro h; rw [h] at hlt; simp at hlt
  have h1 : ¬((sentencesOf t).length = segs.length) := Nat.ne_of_lt hlt
  have h2 : ¬(segs.length < (sentencesOf t).length) := by omega
  unfold intelligentTextAlignment
  rw [if_neg (by simp [hmono]), if_neg h1, if_neg h2, if_pos hlt]
  exact contentBased_flatten t (sentencesOf t) segs hne

/-- C5: whenever the content-proportional fallback path of the aligner is
used (sentence count strictly below segment count — which forces a
nonempty segment list — and no monologue override), the words distributed
across the output segments are exactly the words of Source A's text, in
their original order, none dropped and none duplicated; in particular the
total number of assigned words equals the number of words of the text. -/
theorem claim5_content_word_conservation (t : JStr) (segs : List Seg)
    (hmono : detectPatientMonologue t segs = false)
    (hlt : (sentencesOf t).length < segs.length) :
    ((intelligentTextAlignment t segs).map (fun s => wordsIn s.text)).flatten = jsWords t ∧
      ((intelligentTextAlignment t segs).map (fun s => (wordsIn s.text).length)).sum
        = (jsWords t).length := by
  have h := intelligent_content_flatten t segs hmono hlt
  refine ⟨h, ?_⟩
  have hcomp : ((intelligentTextAlignment t segs).map (fun s => (wordsIn s.text).length)).sum
      = (((intelligentTextAlignment t segs).map (fun s => wordsIn s.text)).map List.length).sum := by
    rw [List.map_map]; rfl
  rw [hcomp, ← List.length_flatten, h]

def wTextC : JStr := str "I am feeling very tired today"

def wSegsC : List Seg :=
  [{ speaker := str "A", text := str "abcdef", start := 0, stop := 1000, confidence := ⟨9, 10⟩ },
   { speaker := str "B", text := str "ghijkl", start := 1000, stop := 2000, confidence := ⟨9, 10⟩ },
   { speaker := str "A", text := str "mnopqr", start := 2000, stop := 3000, confidence := ⟨9, 10⟩ }]

/-- C5 witness: a one-sentence text over three segments satisfies the
hypotheses, and the conservation equations hold there. -/
theorem claim5_content_word_conservation_witness :
    detectPatientMonologue wTextC wSegsC = false ∧
      (sentencesOf wTextC).length < wSegsC.length ∧
      (((intelligentTextAlignment wTextC wSegsC).map (fun s => wordsIn s.text)).flatten
          = jsWords wTextC ∧
        ((intelligentTextAlignment wTextC wSegsC).map (fun s => (wordsIn s.text).length)).sum
          = (jsWords wTextC).length) :=
  ⟨by decide, by decide, claim5_content_word_conservation wTextC wSegsC (by decide) (by decide)⟩

/-- C1 (amended): the concatenated words of the aligner's output equal the
words of Source A's text on the single-segment, patient-monologue and
content-proportional paths.  (The one-to-one and sentence-grouping paths
re-split the text into sentences and may drop short fragments, see the
counterexample.) -/
theorem claim1_full_coverage_amended (t : JStr) (segs : List Seg)
    (ht : t ≠ []) (hsegs : segs ≠ [])
    (hpath : segs.length = 1 ∨ detectPatientMonologue t segs = true ∨
      (sentencesOf t).length < segs.length) :
    ((alignWhisperWithSpeakers t segs).map (fun s => wordsIn s.text)).flatten = jsWords t := by
  unfold alignWhisperWithSpeakers
  rw [if_neg (by simp [ht, hsegs])]
  cases segs with
  | nil => exact absurd rfl hsegs
  | cons s rest =>
    cases rest with
    | nil => simp [jsWords]
    | cons s2 rest2 =>
      rcases hpath with hlen | hmono | hlt
      · simp at hlen
      · unfold intelligentTextAlignment
        rw [if_pos hmono]
        simp [jsWords]
      · by_cases hmono : detectPatientMonologue t (s :: s2 :: rest2) = true
        · unfold intelligentTextAlignment
          rw [if_pos hmono]
          simp [jsWords]
        · exact intelligent_content_flatten t (s :: s2 :: rest2) (by simpa using hmono) hlt

/-- C1 witness: a concrete run through the content-proportional path of
the full aligner entry point conserves the words. -/
theorem claim1_full_coverage_amended_witness :
    ((alignWhisperWithSpeakers wTextC wSegsC).map (fun s => wordsIn s.text)).flatten
      = jsWords wTextC :=
  claim1_full_coverage_amended wTextC wSegsC (by decide) (by decide)
    (Or.inr (Or.inr (by decide)))

def cxText1 : JStr := str "No. Go. I am here today. We can talk more now."

def cxSegs1 : List Seg :=
  [{ speaker := str "A", text := str "placeholder one", start := 0, stop := 2000,
     confidence := ⟨9, 10⟩ },
   { speaker := str "B", text := str "placeholder two", start := 2000, stop := 4000,
     confidence := ⟨85, 100⟩ }]

/-- C1 counterexample: with Source A text
`"No. Go. I am here today. We can talk more now."` and two diarized
segments, the aligner takes the one-to-one path (the fragments `No` and
`Go` are filtered out of the sentence list), and the word `No.` of Source
A's text appears in no output segment — the concatenated output does not
account for the entirety of Source A's text. -/
theorem claim1_full_coverage_counterexample :
    (str "No.") ∈ jsWords cxText1 ∧
      (str "No.") ∉ ((alignWhisperWithSpeakers cxText1 cxSegs1).map
        (fun s => wordsIn s.text)).flatten := by
  decide

def cxSegs2 : List Seg :=
  (List.range 9).map (fun i =>
    { speaker := str "A", text := str "hello there my friend", start := (3000 * i : Int),
      stop := (3000 * i + 1000 : Int), confidence := ⟨9, 10⟩ }) ++
  [{ speaker := str "B", text := str "yes i am listening now", start := 27000, stop := 28000,
     confidence := ⟨9, 10⟩ }]

/-- C2 counterexample: ten optimized segments of which one speaker labels
nine (90 %), with long texts, slow alternation and equal confidences — the
detector reports multi-speaker, because the dominance test requires a
share strictly above 95 %, and no other test fires. -/
theorem claim2_dominance_counterexample :
    (cxSegs2.filter (fun s => s.speaker == str "A")).length = 9 ∧ cxSegs2.length = 10 ∧
      analyzeVoicePatterns cxSegs2 = { isSingleSpeaker := false, primarySpeaker := str "A" } := by
  decide

def amSegs2 : List Seg :=
  (List.range 20).map (fun i =>
    { speaker := str "A", text := str "hello there my friend", start := (3000 * i : Int),
      stop := (3000 * i + 1000 : Int), confidence := ⟨9, 10⟩ }) ++
  [{ speaker := str "B", text := str "yes i see it now" , start := 60000, stop := 61000,
     confidence := ⟨9, 10⟩ }]

/-- C2 (amended): the dominance test fires only when one speaker's share
of the segment count strictly exceeds 95 %; e.g. with 21 segments of which
one speaker labels 20 (about 95.2 %), the detector declares single-speaker
with that speaker as primary. -/
theorem claim2_dominance_amended :
    (amSegs2.filter (fun s => s.speaker == str "A")).length = 20 ∧ amSegs2.length = 21 ∧
      analyzeVoicePatterns amSegs2 = { isSingleSpeaker := true, primarySpeaker := str "A" } := by
  decide

def envEmptyFile : TranscribeEnv :=
  { assemblyKeyPresent := true
    openaiKeyPresent := true
    filePath := some (str "clip.webm")
    fileOnDisk := true
    fileSize := 0
    whisperOutcome := Except.ok (str "hello there friend")
    assemblyOutcome := Except.error (str "upload failed")
    laterStageThrows := false }

def envValid : TranscribeEnv := { envEmptyFile with fileSize := 5000 }

def envThrow : TranscribeEnv := { envValid with laterStageThrows := true }

/-- C3: at the failing input — both API keys configured, a temp file
uploaded and on disk, but empty (size 0) — the endpoint exits through the
validation failure without deleting the temp file (deletion count 0),
contradicting the claim that every exit path deletes it exactly once; a
fully validated run, and a run where a later stage throws, do delete it
exactly once. -/
theorem claim3_temp_file_leak :
    (transcribeWithSpeakersModel envEmptyFile).1 = 0 ∧
      (transcribeWithSpeakersModel envEmptyFile).2.status = 400 ∧
      (transcribeWithSpeakersModel envValid).1 = 1 ∧
      (transcribeWithSpeakersModel envThrow).1 = 1 := by
  decide

def envBothFail : TranscribeEnv :=
  { assemblyKeyPresent := true
    openaiKeyPresent := true
    filePath := some (str "visit.mp3")
    fileOnDisk := true
    fileSize := 4000
    whisperOutcome := Except.error (str "Connection timeout")
    assemblyOutcome := Except.error (str "Upload failed with status 503")
    laterStageThrows := false }

/-- C9 counterexample: when both sources fail with specific reasons
(`Connection timeout`, `Upload failed with status 503`), the response is
`success: false` with the fixed aggregated message naming both services —
but neither underlying reason appears anywhere in it, so the underlying
reasons are not surfaced. -/
theorem claim9_both_fail_counterexample :
    (transcribeWithSpeakersModel envBothFail).2.success = false ∧
      (transcribeWithSpeakersModel envBothFail).2.error
        = str "Both Whisper transcription and Assembly AI speaker detection failed" ∧
      jsIncludes (transcribeWithSpeakersModel envBothFail).2.error (str "timeout") = false ∧
      jsIncludes (transcribeWithSpeakersModel envBothFail).2.error (str "503") = false := by
  decide

/-- C9 (amended): whatever the two failure reasons are, the both-failed
response is `success: false`, HTTP 500, with the fixed aggregated error
message naming both services; the reasons themselves are only logged,
never surfaced in the response. -/
theorem claim9_both_fail_amended (r1 r2 : JStr) :
    transcribeWithSpeakersModel
      { assemblyKeyPresent := true
        openaiKeyPresent := true
        filePath := some (str "visit.mp3")
        fileOnDisk := true
        fileSize := 4000
        whisperOutcome := Except.error r1
        assemblyOutcome := Except.error r2
        laterStageThrows := false }
      = (1, { success := false
              error := str "Both Whisper transcription and Assembly AI speaker detection failed"
              status := 500 }) := rfl

/-- C10: when the diarizer job completed with a nonempty utterance list
whose reported average confidence exceeds 0.7 and which has at most 10
utterances, the segments handed to the aligner are exactly the raw
utterances, each with only its speaker label canonicalized and the
`preservedUtterance` flag set — no optimizer pass, no dropping, no
merging, no single-speaker collapse. -/
theorem claim10_preserved_utterances (tr : AssemblyTranscript)
    (hstatus : tr.status = str "completed")
    (hne : tr.utterances ≠ [])
    (hconf : qLt ⟨7, 10⟩ (validateSpeakerQuality tr.utterances).averageConfidence)
    (hlen : tr.utterances.length ≤ 10) :
    computeSpeakerSegments (Except.ok tr)
      = tr.utterances.map (fun s =>
          { s with speaker := normalizeSpeakerLabel s.speaker, preservedUtterance := true }) := by
  unfold computeSpeakerSegments
  dsimp only
  rw [if_pos hstatus, if_pos (by simpa using hne), if_pos ⟨hconf, hlen⟩]

def trPreserve : AssemblyTranscript :=
  { status := str "completed"
    text := []
    utterances :=
      [{ speaker := str "A", text := str "hello doctor here", start := 0, stop := 1000,
         confidence := ⟨9, 10⟩ },
       { speaker := str "0", text := str "hi", start := 1200, stop := 2000,
         confidence := ⟨9, 10⟩ }] }

/-- C10 witness: a completed transcript with two utterances of confidence
0.9 passes the quality gate and is preserved verbatim up to label
canonicalization and the flag. -/
theorem claim10_preserved_utterances_witness :
    computeSpeakerSegments (Except.ok trPreserve)
      = trPreserve.utterances.map (fun s =>
          { s with speaker := normalizeSpeakerLabel s.speaker, preservedUtterance := true }) :=
  claim10_preserved_utterances trPreserve rfl (by decide) (by decide) (by decide)

/-- C4: whenever the patient-monologue heuristic fires — patient-phrase
score at least 2, strictly above the doctor-phrase score, a patient
opening, and more than 3 diarized segments — the aligner's output is
exactly one segment whose start is the minimum segment start, whose end is
the maximum segment end, and which carries the complete (trimmed) Source A
text. -/
theorem claim4_patient_monologue (t : JStr) (segs : List Seg)
    (hdet : detectPatientMonologue t segs = true) :
    intelligentTextAlignment t segs =
      [{ segs.headD segDefault with
          speaker := str "B"
          text := jsTrim t
          start := listMinI (segs.map (fun s => s.start))
          stop := listMaxI (segs.map (fun s => s.stop))
          confidence := qDiv (qSum (segs.map (fun s => s.confidence))) ⟨(segs.length : Int), 1⟩
          whisperBased := true
          assemblyAI := true
          mappingMethod := str "patient-monologue" }] := by
  unfold intelligentTextAlignment
  rw [if_pos hdet]

def wText4 : JStr := str "Doctor, I am having stomach pain since last night"

def wSegs4 : List Seg :=
  [{ speaker := str "A", text := str "uh stomach", start := 0, stop := 1000,
     confidence := ⟨9, 10⟩ },
   { speaker := str "B", text := str "pain last night", start := 1000, stop := 2500,
     confidence := ⟨8, 10⟩ },
   { speaker := str "A", text := str "since last", start := 2500, stop := 4000,
     confidence := ⟨85, 100⟩ },
   { speaker := str "B", text := str "night doctor", start := 4000, stop := 6000,
     confidence := ⟨9, 10⟩ }]

/-- C4 witness: the text `"Doctor, I am having stomach pain since last
night"` with four diarized segments and no doctor-register phrases
triggers the heuristic, and the aligner collapses to one segment spanning
0–6000 ms with the complete text. -/
theorem claim4_patient_monologue_witness :
    detectPatientMonologue wText4 wSegs4 = true ∧
      intelligentTextAlignment wText4 wSegs4 =
        [{ wSegs4.headD segDefault with
            speaker := str "B"
            text := jsTrim wText4
            start := listMinI (wSegs4.map (fun s => s.start))
            stop := listMaxI (wSegs4.map (fun s => s.stop))
            confidence := qDiv (qSum (wSegs4.map (fun s => s.confidence))) ⟨(wSegs4.length : Int), 1⟩
            whisperBased := true
            assemblyAI := true
            mappingMethod := str "patient-monologue" }] :=
  ⟨by decide, claim4_patient_monologue wText4 wSegs4 (by decide)⟩

/- ### Case-map lemmas for canonicalization -/

theorem jsCharLower_upper (c : Nat) : jsCharLower (jsCharUpper c) = jsCharLower c := by
  unfold jsCharLower jsCharUpper
  split_ifs <;> omega

theorem jsCharUpper_idem (c : Nat) : jsCharUpper (jsCharUpper c) = jsCharUpper c := by
  unfold jsCharUpper
  split_ifs <;> omega

theorem jsToLower_upper (s : JStr) : jsToLower (jsToUpper s) = jsToLower s := by
  unfold jsToLower jsToUpper
  rw [List.map_map]
  exact List.map_congr_left (fun c _ => jsCharLower_upper c)

theorem jsToUpper_idem (s : JStr) : jsToUpper (jsToUpper s) = jsToUpper s := by
  unfold jsToUpper
  rw [List.map_map]
  exact List.map_congr_left (fun c _ => jsCharUpper_idem c)

/-- Uppercasing cannot produce a one-character string below `A` (such as a
digit) unless the input already was that string. -/
theorem jsToUpper_eq_single (s : JStr) (d : Nat) (hd : d < 65)
    (h : jsToUpper s = [d]) : s = [d] := by
  cases s with
  | nil => simp [jsToUpper] at h
  | cons c rest =>
    cases rest with
    | nil =>
      simp only [jsToUpper, List.map_cons, List.map_nil, List.cons.injEq, and_true] at h
      have hc : c = d := by
        unfold jsCharUpper at h
        split_ifs at h <;> omega
      rw [hc]
    | cons c2 r2 => simp [jsToUpper] at h

theorem normalizeSpeakerLabel_idem (s : JStr) :
    normalizeSpeakerLabel (normalizeSpeakerLabel s) = normalizeSpeakerLabel s := by
  by_cases h1 : (jsIncludes (jsToLower s) (str "a") || s == str "0") = true
  · have hA : normalizeSpeakerLabel s = str "A" := by
      unfold normalizeSpeakerLabel; rw [if_pos h1]
    rw [hA]; decide
  · by_cases h2 : (jsIncludes (jsToLower s) (str "b") || s == str "1") = true
    · have hB : normalizeSpeakerLabel s = str "B" := by
        unfold normalizeSpeakerLabel; rw [if_neg h1, if_pos h2]
      rw [hB]; decide
    · have hU : normalizeSpeakerLabel s = jsToUpper s := by
        unfold normalizeSpeakerLabel; rw [if_neg h1, if_neg h2]
      obtain ⟨ha, h0⟩ := Bool.or_eq_false_iff.mp (Bool.eq_false_iff.mpr h1)
      obtain ⟨hb, hone⟩ := Bool.or_eq_false_iff.mp (Bool.eq_false_iff.mpr h2)
      have h0' : (jsToUpper s == str "0") = false := by
        apply beq_eq_false_iff_ne.mpr
        intro hEq
        have hs : s = [48] := jsToUpper_eq_single s 48 (by omega) hEq
        exact absurd hs (beq_eq_false_iff_ne.mp h0)
      have h1' : (jsToUpper s == str "1") = false := by
        apply beq_eq_false_iff_ne.mpr
        intro hEq
        have hs : s = [49] := jsToUpper_eq_single s 49 (by omega) hEq
        exact absurd hs (beq_eq_false_iff_ne.mp hone)
      have ha' : jsIncludes (jsToLower (jsToUpper s)) (str "a") = false := by
        rw [jsToLower_upper]; exact ha
      have hb' : jsIncludes (jsToLower (jsToUpper s)) (str "b") = false := by
        rw [jsToLower_upper]; exact hb
      rw [hU]
      unfold normalizeSpeakerLabel
      rw [ha', h0', hb', h1']
      simp [jsToUpper_idem]

theorem normalizeSpeakerLabelC_idem (s : JStr) :
    normalizeSpeakerLabelC (normalizeSpeakerLabelC s) = normalizeSpeakerLabelC s := by
  by_cases h1 : (jsIncludes (jsToLower s) (str "a") || s == str "0") = true
  · have hA : normalizeSpeakerLabelC s = str "A" := by
      unfold normalizeSpeakerLabelC; rw [if_pos h1]
    rw [hA]; decide
  · by_cases h2 : (jsIncludes (jsToLower s) (str "b") || s == str "1") = true
    · have hB : normalizeSpeakerLabelC s = str "B" := by
        unfold normalizeSpeakerLabelC; rw [if_neg h1, if_pos h2]
      rw [hB]; decide
    · by_cases h3 : (jsIncludes (jsToLower s) (str "c") || s == str "2") = true
      · have hC : normalizeSpeakerLabelC s = str "C" := by
          unfold normalizeSpeakerLabelC; rw [if_neg h1, if_neg h2, if_pos h3]
        rw [hC]; decide
      · have hU : normalizeSpeakerLabelC s = jsToUpper s := by
          unfold normalizeSpeakerLabelC; rw [if_neg h1, if_neg h2, if_neg h3]
        obtain ⟨ha, h0⟩ := Bool.or_eq_false_iff.mp (Bool.eq_false_iff.mpr h1)
        obtain ⟨hb, hone⟩ := Bool.or_eq_false_iff.mp (Bool.eq_false_iff.mpr h2)
        obtain ⟨hc, htwo⟩ := Bool.or_eq_false_iff.mp (Bool.eq_false_iff.mpr h3)
        have h0' : (jsToUpper s == str "0") = false := by
          apply beq_eq_false_iff_ne.mpr
          intro hEq
          exact absurd (jsToUpper_eq_single s 48 (by omega) hEq) (beq_eq_false_iff_ne.mp h0)
        have h1' : (jsToUpper s == str "1") = false := by
          apply beq_eq_false_iff_ne.mpr
          intro hEq
          exact absurd (jsToUpper_eq_single s 49 (by omega) hEq) (beq_eq_false_iff_ne.mp hone)
        have h2' : (jsToUpper s == str "2") = false := by
          apply beq_eq_false_iff_ne.mpr
          intro hEq
          exact absurd (jsToUpper_eq_single s 50 (by omega) hEq) (beq_eq_false_iff_ne.mp htwo)
        have ha' : jsIncludes (jsToLower (jsToUpper s)) (str "a") = false := by
          rw [jsToLower_upper]; exact ha
        have hb' : jsIncludes (jsToLower (jsToUpper s)) (str "b") = false := by
          rw [jsToLower_upper]; exact hb
        have hc' : jsIncludes (jsToLower (jsToUpper s)) (str "c") = false := by
          rw [jsToLower_upper]; exact hc
        rw [hU]
        unfold normalizeSpeakerLabelC
        rw [ha', h0', hb', h1', hc', h2']
        simp [jsToUpper_idem]

/-- C8: speaker-label canonicalization is idempotent — for the current
controller's revision and for the part_005 revision alike:
`canonicalize (canonicalize x) = canonicalize x` for every raw label. -/
theorem claim8_canonicalization_idempotent (s : JStr) :
    normalizeSpeakerLabel (normalizeSpeakerLabel s) = normalizeSpeakerLabel s ∧
      normalizeSpeakerLabelC (normalizeSpeakerLabelC s) = normalizeSpeakerLabelC s :=
  ⟨normalizeSpeakerLabel_idem s, normalizeSpeakerLabelC_idem s⟩

/-- C7 counterexample: the current controller's canonicalization maps the
raw label `"2"` to `"2"` (uppercasing falls through), not to `C` as the
claim states. -/
theorem claim7_canonicalization_counterexample :
    normalizeSpeakerLabel (str "2") = str "2" ∧ normalizeSpeakerLabel (str "2") ≠ str "C" := by
  decide

/-- C7 (amended): the part_005 revision realizes the claimed total mapping
exactly; the current controller's revision omits the `c`/`"2" → C` rule
but agrees with the claimed mapping on every label that neither contains
`c` (lowercased) nor equals `"2"`.  Both are total functions. -/
theorem claim7_canonicalization_amended (s : JStr) :
    normalizeSpeakerLabelC s = specCanonicalizeLabel s ∧
      (jsIncludes (jsToLower s) (str "c") = false → s ≠ str "2" →
        normalizeSpeakerLabel s = specCanonicalizeLabel s) := by
  constructor
  · rfl
  · intro hc h2
    have h2' : (s == str "2") = false := beq_eq_false_iff_ne.mpr h2
    unfold normalizeSpeakerLabel specCanonicalizeLabel
    rw [hc, h2']
    simp

/-- C7 witness: at the raw label `"x"` (no `a`/`b`/`c`, no digit), all
three canonicalizations agree and uppercase it. -/
theorem claim7_canonicalization_amended_witness :
    normalizeSpeakerLabelC (str "x") = specCanonicalizeLabel (str "x") ∧
      normalizeSpeakerLabel (str "x") = specCanonicalizeLabel (str "x") :=
  ⟨(claim7_canonicalization_amended (str "x")).1,
    (claim7_canonicalization_amended (str "x")).2 (by decide) (by decide)⟩

/- ### The optimizer on a mergeable adjacent pair -/

theorem analyzeVoicePatterns_single (x : Seg) :
    analyzeVoicePatterns [x] = ⟨false, str "A"⟩ := by
  unfold analyzeVoicePatterns
  rw [if_pos (by simp)]

def cxSegA6 : Seg :=
  { speaker := str "0", text := str "hello there", start := 0, stop := 1000,
    confidence := ⟨8, 10⟩ }

def cxSegB6 : Seg :=
  { speaker := str "0", text := str "how are you", start := 1500, stop := 3000,
    confidence := ⟨9, 10⟩ }

/-- C6 counterexample: two adjacent segments with the same raw speaker
`"0"`, gap 500 ms and confidences 0.8/0.9 do not merge: the optimizer
emits two segments, because its merge test compares the already-normalized
previous label (`A`) against the raw current label (`"0"`). -/
theorem claim6_merge_counterexample :
    cxSegA6.speaker = cxSegB6.speaker ∧
      cxSegB6.start - cxSegA6.stop = 500 ∧
      cxSegA6.confidence = ⟨8, 10⟩ ∧ cxSegB6.confidence = ⟨9, 10⟩ ∧
      (optimizeSpeakerSegments [cxSegA6, cxSegB6]).length = 2 := by
  decide

/-- C6 (amended): two adjacent segments with the same speaker label that
is a fixed point of canonicalization (as the canonical `A`, `B`, `C` are),
an inter-segment gap of 500 ms, confidences 0.8 and 0.9, and texts that
survive the 5-character noise filter, merge into one segment spanning from
the first's start to the second's end, with the two texts concatenated by
a single space and the maximum confidence 0.9. -/
theorem claim6_merge_amended (s1 s2 : Seg)
    (hsp : s1.speaker = s2.speaker)
    (hfix : normalizeSpeakerLabel s1.speaker = s1.speaker)
    (hgap : s2.start - s1.stop = 500)
    (hc1 : s1.confidence = ⟨8, 10⟩) (hc2 : s2.confidence = ⟨9, 10⟩)
    (ht1 : 5 ≤ (jsTrim s1.text).length) (ht2 : 5 ≤ (jsTrim s2.text).length)
    (hord : s1.start ≤ s2.start) :
    optimizeSpeakerSegments [s1, s2] =
      [{ s1 with text := s1.text ++ 32 :: s2.text, stop := s2.stop, confidence := ⟨9, 10⟩ }] := by
  have heta : ({ s1 with speaker := s1.speaker } : Seg) = s1 := rfl
  have hmerge : shouldMergeSegments s1 s2 = true := by
    unfold shouldMergeSegments
    rw [hgap, hsp, hc1, hc2]
    simp
    exact ⟨by decide, by decide⟩
  have hsort : sortByStart [s1, s2] = [s1, s2] := by
    show insertSorted s1 [s2] = [s1, s2]
    unfold insertSorted
    rw [if_neg (by omega : ¬s2.start < s1.start)]
  have havg : (validateSpeakerQuality [s1, s2]).averageConfidence = ⟨85, 100⟩ := by
    unfold validateSpeakerQuality
    rw [if_neg (by simp)]
    dsimp only
    simp only [List.map_cons, List.map_nil, List.length_cons, List.length_nil]
    rw [hc1, hc2]
    decide
  have hloop : ∀ v : Quality, optLoop v [] [s1, s2] =
      [{ s1 with text := s1.text ++ 32 :: s2.text, stop := s2.stop, confidence := ⟨9, 10⟩ }] := by
    intro v
    have hn1 : ¬((jsTrim s1.text).length < 5) := by omega
    have hn2 : ¬((jsTrim s2.text).length < 5) := by omega
    have hcl1 : ¬(qLt s1.confidence ⟨5, 10⟩ ∧ v.hasHighConfidenceSegments = true) :=
      fun h => absurd (hc1 ▸ h.1) (by decide)
    have hcl2 : ¬(qLt s2.confidence ⟨5, 10⟩ ∧ v.hasHighConfidenceSegments = true) :=
      fun h => absurd (hc2 ▸ h.1) (by decide)
    simp only [optLoop, if_neg hn1, if_neg hn2, if_neg hcl1, if_neg hcl2, hfix, heta,
      hmerge, if_true, List.reverse_cons, List.reverse_nil, List.nil_append]
    simp only [hc1, hc2, show qMax (⟨8, 10⟩ : QQ) ⟨9, 10⟩ = ⟨9, 10⟩ from by decide]
  unfold optimizeSpeakerSegments
  rw [if_neg (by simp)]
  dsimp only
  rw [hsort, hloop, havg, if_pos (by decide : qLt ⟨6, 10⟩ (⟨85, 100⟩ : QQ)),
    analyzeVoicePatterns_single]
  simp

def wSegA6 : Seg :=
  { speaker := str "A", text := str "hello there", start := 0, stop := 1000,
    confidence := ⟨8, 10⟩ }

def wSegB6 : Seg :=
  { speaker := str "A", text := str "how are you", start := 1500, stop := 3000,
    confidence := ⟨9, 10⟩ }

/-- C6 witness: with the canonical label `A` on both segments, gap 500 ms
and confidences 0.8/0.9, the optimizer merges the pair into a single
segment 0–3000 ms with the texts joined by one space and confidence 0.9. -/
theorem claim6_merge_amended_witness :
    optimizeSpeakerSegments [wSegA6, wSegB6] =
      [{ wSegA6 with
          text := wSegA6.text ++ 32 :: wSegB6.text
          stop := wSegB6.stop
          confidence := ⟨9, 10⟩ }] :=
  claim6_merge_amended wSegA6 wSegB6 (by decide) (by decide) (by decide) (by decide)
    (by decide) (by decide) (by decide) (by decide)
